import Mathlib

/-!
Verification development for the umqtt.simple2 MQTT 3.1.1 client core
(src/umqtt/simple2.py).

The Python source is shallowly embedded:
* pure helpers of the module become Lean functions over `Nat` / `List Nat`;
* the transport (`self.sock`) is modelled as a prescribed sequence of
  read results, one entry per `sock.read` call (`none` = timeout,
  `some bytes` = the bytes the transport returned);
* mutable client state (`rcv_pids`, callback invocations, written bytes)
  is threaded explicitly; Python exceptions become `Except Err`.
-/

namespace Umqtt

/-- Raw byte sequences; each element is one byte value. -/
abbrev Bytes := List Nat

/-- Python exceptions raised by the module.  `mqtt c` is `MQTTException(c)`,
`mqttArg c a` is `MQTTException(c, a)`, `mqttResp c r` is `MQTTException(c, resp)`,
`assertFail` is a failed `assert` (AssertionError), `typeError` is the
`TypeError` Python raises when `int.from_bytes`/subscripting is applied to
`None`. -/
inductive Err where
  | mqtt (code : Int)
  | mqttArg (code : Int) (arg : Nat)
  | mqttResp (code : Int) (resp : Bytes)
  | assertFail
  | typeError
deriving DecidableEq, Repr

/-! ## MicroPython tick arithmetic (utime.ticks_add / ticks_diff)

MicroPython millisecond ticks live modulo `TICKS_PERIOD = 2^30`;
`ticks_diff(a, b)` is the wraparound-safe signed difference in
`[-2^29, 2^29)`. -/

def TICKS_MOD : Nat := 2 ^ 30

def ticks_add (t delta : Nat) : Nat := (t + delta) % TICKS_MOD

def ticks_diff (a b : Nat) : Int :=
  ((a : Int) - (b : Int) + 2 ^ 29) % (2 ^ 30) - 2 ^ 29

/-! ## Packet-id allocator (`pid_gen`, source lines 10-13)

`pid_gen` is a generator holding the last issued pid; each draw executes
`pid = pid + 1 if pid < 65535 else 1` and yields it.  The generator is
created as `pid_gen()` i.e. with initial state 0. -/

/-- One draw of `pid_gen`: the next issued pid given the last one. -/
def next_pid (pid : Nat) : Nat := if pid < 65535 then pid + 1 else 1

/-- The k-th pid issued by `pid_gen()` (1-indexed; `pid_nth 0 = 0` is the
initial generator state, never issued). -/
def pid_nth (k : Nat) : Nat := next_pid^[k] 0

theorem next_pid_range (s : Nat) : 1 ≤ next_pid s ∧ next_pid s ≤ 65535 := by
  unfold next_pid; split <;> omega

theorem pid_nth_succ (k : Nat) : pid_nth (k + 1) = next_pid (pid_nth k) := by
  unfold pid_nth
  exact Function.iterate_succ_apply' next_pid k 0

theorem pid_nth_id : ∀ i, i ≤ 65535 → pid_nth i = i := by
  intro i
  induction i with
  | zero => intro _; rfl
  | succ j ih =>
    intro h
    rw [pid_nth_succ, ih (by omega)]
    unfold next_pid
    split <;> omega

/-- C10: drawing 65536 consecutive packet ids from the allocator yields
1, 2, ..., 65535, 1 (stated index-wise: the i-th draw yields i for
1 ≤ i ≤ 65535 and draw 65536 yields 1), and every issued id lies in
[1, 65535], so 0 is never issued. -/
theorem c10_pid_allocator :
    (∀ i, 1 ≤ i → i ≤ 65535 → pid_nth i = i) ∧
    pid_nth 65536 = 1 ∧
    (∀ k, 1 ≤ k → 1 ≤ pid_nth k ∧ pid_nth k ≤ 65535) := by
  refine ⟨fun i _ h2 => pid_nth_id i h2, ?_, ?_⟩
  · have h65535 : pid_nth 65535 = 65535 := pid_nth_id 65535 (by omega)
    rw [show (65536 : Nat) = 65535 + 1 from rfl, pid_nth_succ, h65535]
    unfold next_pid
    simp
  · intro k hk
    obtain ⟨j, rfl⟩ : ∃ j, k = j + 1 := ⟨k - 1, by omega⟩
    rw [pid_nth_succ]
    exact next_pid_range (pid_nth j)

/-- Witness for C10 at concrete draws. -/
theorem c10_pid_allocator_witness :
    pid_nth 3 = 3 ∧ (1 ≤ pid_nth 5 ∧ pid_nth 5 ≤ 65535) :=
  ⟨c10_pid_allocator.1 3 (by decide) (by decide),
   c10_pid_allocator.2.2 5 (by decide)⟩

/-! ## VarInt codec

`MQTTClient._varlen_encode` (source lines 135-142) asserts
`value < 268435456` then writes `(value & 0x7f) | 0x80` while
`value > 0x7f`, shifting right by 7, and terminates with a byte whose
high bit is clear.

`MQTTClient._recv_len` (source lines 120-133) reads one byte at a time
from the transport, accumulating `n |= (b & 0x7f) << sh`, `sh += 7`,
returning as soon as a byte's high bit is clear; it has no iteration
bound.  `recv_len_go` runs it over a byte stream delivering one byte per
read; an exhausted stream (read failure) yields `none`. -/

/-- The byte list `_varlen_encode` writes into the buffer for `value`
(the loop of lines 137-141). -/
def varlen_bytes (value : Nat) : Bytes :=
  if value > 0x7f then
    ((value &&& 0x7f) ||| 0x80) :: varlen_bytes (value >>> 7)
  else [value]
termination_by value
decreasing_by
  simp only [Nat.shiftRight_eq_div_pow]
  omega

/-- `_varlen_encode` including its precondition `assert value < 268435456`. -/
def varlen_encode (value : Nat) : Option Bytes :=
  if value < 268435456 then some (varlen_bytes value) else none

/-- The `_recv_len` loop over a byte stream: returns the decoded value and
the unconsumed remainder of the stream, or `none` if the stream is
exhausted before a terminating byte (a read failure). -/
def recv_len_go : Bytes → Nat → Nat → Option (Nat × Bytes)
  | [], _, _ => none
  | b :: rest, sh, n =>
    let n2 := n ||| ((b &&& 0x7f) <<< sh)
    if b &&& 0x80 = 0 then some (n2, rest)
    else recv_len_go rest (sh + 7) n2

/-- `_recv_len` started with `n = 0`, `sh = 0` (lines 126-127). -/
def recv_len_pure (bs : Bytes) : Option (Nat × Bytes) := recv_len_go bs 0 0

theorem lor_shiftLeft_eq_add {n sh : Nat} (v : Nat) (h : n < 2 ^ sh) :
    n ||| (v <<< sh) = n + v * 2 ^ sh := by
  rw [Nat.shiftLeft_eq, Nat.lor_comm, Nat.mul_comm v (2 ^ sh),
    ← Nat.mul_add_lt_is_or h]
  omega

theorem low_byte_facts : ∀ a, a < 128 →
    ((a ||| 128) &&& 128 = 128) ∧ ((a ||| 128) &&& 127 = a) ∧
    (a &&& 128 = 0) ∧ (a &&& 127 = a) ∧ (a ||| 128 < 256) := by decide

theorem and_127_eq_mod (v : Nat) : v &&& 127 = v % 128 := by
  have h : v &&& 2 ^ 7 - 1 = v % 2 ^ 7 := Nat.and_pow_two_sub_one_eq_mod v 7
  norm_num at h
  exact h

theorem recv_len_go_encode (v : Nat) : ∀ sh n rest, n < 2 ^ sh →
    recv_len_go (varlen_bytes v ++ rest) sh n = some (n + v * 2 ^ sh, rest) := by
  induction v using Nat.strong_induction_on with
  | _ v ih =>
    intro sh n rest hn
    rw [varlen_bytes]
    by_cases h : v > 127
    · simp only [if_pos h, List.cons_append]
      have hlow : v &&& 127 < 128 := by rw [and_127_eq_mod]; omega
      have hfacts := low_byte_facts (v &&& 127) hlow
      rw [recv_len_go]
      simp only [hfacts.1, hfacts.2.1]
      rw [if_neg (by omega)]
      have hpow : (2 : Nat) ^ (sh + 7) = 2 ^ sh * 128 := by
        rw [pow_add]; norm_num
      have hmod : v &&& 127 = v % 128 := and_127_eq_mod v
      have hn2 : n ||| ((v &&& 127) <<< sh) = n + (v % 128) * 2 ^ sh := by
        rw [hmod]; exact lor_shiftLeft_eq_add (v % 128) hn
      have hn2lt : n + (v % 128) * 2 ^ sh < 2 ^ (sh + 7) := by
        rw [hpow]
        have : v % 128 < 128 := Nat.mod_lt _ (by omega)
        nlinarith [Nat.pos_pow_of_pos sh (show 0 < 2 by omega)]
      have hdiv : v >>> 7 = v / 128 := by
        rw [Nat.shiftRight_eq_div_pow]
      have hlt : v >>> 7 < v := by
        rw [hdiv]
        exact Nat.div_lt_self (by omega) (by norm_num)
      rw [hn2, ih (v >>> 7) hlt (sh + 7) _ rest hn2lt]
      congr 2
      rw [hdiv, hpow]
      have hvm : 128 * (v / 128) + v % 128 = v := Nat.div_add_mod v 128
      nlinarith [hvm]
    · simp only [if_neg h, List.cons_append, List.nil_append]
      have hfacts := low_byte_facts v (by omega)
      simp only [recv_len_go, hfacts.2.2.2.1]
      rw [if_pos hfacts.2.2.1]
      rw [lor_shiftLeft_eq_add v hn]

theorem varlen_bytes_ne_nil (v : Nat) : varlen_bytes v ≠ [] := by
  rw [varlen_bytes]
  split <;> simp

theorem varlen_bytes_length_le : ∀ k v, v < 2 ^ (7 * (k + 1)) →
    (varlen_bytes v).length ≤ k + 1 := by
  intro k
  induction k with
  | zero =>
    intro v hv
    have h2 : (2 : Nat) ^ (7 * (0 + 1)) = 128 := by norm_num
    rw [h2] at hv
    rw [varlen_bytes, if_neg (by omega)]
    simp
  | succ j ih =>
    intro v hv
    rw [varlen_bytes]
    by_cases h : v > 127
    · rw [if_pos h]
      simp only [List.length_cons]
      have hdiv : v >>> 7 = v / 128 := by
        rw [Nat.shiftRight_eq_div_pow]
      have hpow : (2 : Nat) ^ (7 * (j + 1 + 1)) = 2 ^ (7 * (j + 1)) * 128 := by
        rw [show 7 * (j + 1 + 1) = 7 * (j + 1) + 7 by ring, pow_add]
        norm_num
      have hv2 : v >>> 7 < 2 ^ (7 * (j + 1)) := by
        rw [hdiv]
        rw [hpow] at hv
        exact Nat.div_lt_of_lt_mul (by omega)
      have := ih (v >>> 7) hv2
      omega
    · rw [if_neg h]
      simp

/-- C4: for every v < 2^28 the encoder succeeds (its precondition holds),
decoding the encoding yields v back with no residue, the encoding is 1 to
4 bytes long, and encoding 268435456 = 2^28 fails the precondition
`assert value < 268435456`. -/
theorem c4_varint_roundtrip :
    (∀ v, v < 268435456 →
      varlen_encode v = some (varlen_bytes v) ∧
      recv_len_pure (varlen_bytes v) = some (v, []) ∧
      1 ≤ (varlen_bytes v).length ∧ (varlen_bytes v).length ≤ 4) ∧
    varlen_encode 268435456 = none := by
  constructor
  · intro v hv
    refine ⟨by rw [varlen_encode, if_pos hv], ?_, ?_, ?_⟩
    · have h := recv_len_go_encode v 0 0 [] (by norm_num)
      simpa [recv_len_pure] using h
    · have := varlen_bytes_ne_nil v
      cases hb : varlen_bytes v with
      | nil => exact absurd hb this
      | cons a l => simp
    · refine varlen_bytes_length_le 3 v ?_
      have h2 : (2 : Nat) ^ (7 * (3 + 1)) = 268435456 := by norm_num
      omega
  · rw [varlen_encode, if_neg (by omega)]

/-- Witness for C4 at v = 2097152 (a 4-byte encoding). -/
theorem c4_varint_roundtrip_witness :
    varlen_encode 2097152 = some (varlen_bytes 2097152) ∧
    recv_len_pure (varlen_bytes 2097152) = some (2097152, []) ∧
    1 ≤ (varlen_bytes 2097152).length ∧ (varlen_bytes 2097152).length ≤ 4 :=
  c4_varint_roundtrip.1 2097152 (by norm_num)

/-- C5 counterexample: on the input 0x80 0x80 0x80 0x80 0x00, whose
continuation bit never clears within the first 4 bytes, `_recv_len` does
not fail with a framing error: it consumes the 5th byte and returns 0. -/
theorem c5_counterexample :
    recv_len_pure [0x80, 0x80, 0x80, 0x80, 0x00] = some (0, []) := by decide

/-- C5 (amended): the decoder imposes no 4-byte framing bound.  It keeps
consuming bytes while the continuation bit is set; on a stream whose
continuation bit never clears it consumes the entire stream and fails
only because the next read fails (stream exhausted), never with a
framing check. -/
theorem c5_no_framing_bound :
    ∀ bs sh n, (∀ b ∈ bs, b &&& 0x80 ≠ 0) → recv_len_go bs sh n = none := by
  intro bs
  induction bs with
  | nil => intro sh n _; rfl
  | cons b rest ih =>
    intro sh n hb
    rw [recv_len_go]
    rw [if_neg (hb b (by simp))]
    exact ih (sh + 7) _ fun x hx => hb x (by simp [hx])

/-- Witness for C5 (amended) on a concrete all-continuation stream. -/
theorem c5_no_framing_bound_witness :
    recv_len_go [0x80, 0x80, 0x80, 0x80, 0x80] 0 0 = none :=
  c5_no_framing_bound [0x80, 0x80, 0x80, 0x80, 0x80] 0 0 (by decide)

/-! ## Client state and the inbound dispatch step (`wait_msg`)

The transport is a prescribed list of `sock.read` results, consumed one
entry per call (`none` = timeout, `some bytes` = what the socket
returned; `some []` = `b''`, connection closed).  `sock.write` is taken
to accept all bytes (its short-write check `_write` is modelled
separately below).  Callback invocations are logged: `stat` records
`cbstat(pid, status)` calls and `msgs` records `cb(topic, msg, retained)`
calls (with `Option` because Python passes `None` through on a timed-out
read).  `sweeps` is a ghost counter of `_message_timeout` invocations.
`now` is the value of `ticks_ms()` during the call. -/

structure WM where
  reads : List (Option Bytes)
  rcv_pids : List (Nat × Nat)
  stat : List (Nat × Nat)
  msgs : List (Option Bytes × Option Bytes × Bool)
  writes : Bytes
  sweeps : Nat
  now : Nat
  last_rx : Nat
  last_rcommand : Nat
deriving DecidableEq, Repr

/-- One `self.sock.read(n)` call: pops the next prescribed result
(an exhausted prescription behaves as a timeout). -/
def sock_read (s : WM) : Option Bytes × WM :=
  match s.reads with
  | [] => (none, s)
  | r :: rest => (r, { s with reads := rest })

/-- `MQTTClient._read(n)` (source lines 71-87): `b''` raises
`MQTTException(1)`; a non-`None` result of the wrong length raises
`MQTTException(2)`; otherwise `last_rx` is refreshed on a non-`None`
read. -/
def read_n (n : Int) (s : WM) : Except Err (Option Bytes) × WM :=
  let (msg, s1) := sock_read s
  match msg with
  | none => (.ok none, s1)
  | some l =>
    if l = [] then (.error (.mqtt 1), s1)
    else if (l.length : Int) ≠ n then (.error (.mqtt 2), s1)
    else (.ok (some l), { s1 with last_rx := s1.now })

/-- `int.from_bytes(l, 'big')`. -/
def int_from_bytes (l : Bytes) : Nat := l.foldl (fun acc b => acc * 256 + b) 0

/-- `n.to_bytes(2, 'big')` (assumes `n < 65536`, as Python would raise
OverflowError otherwise; every use in the source has a 16-bit value). -/
def to_bytes_2 (n : Nat) : Bytes := [n / 256 % 256, n % 256]

/-- `MQTTClient._message_timeout` (source lines 356-361): remove every
entry of `rcv_pids` whose deadline has passed under wraparound-safe
comparison and report status 0 for it. -/
def message_timeout (s : WM) : WM :=
  { s with
    rcv_pids := s.rcv_pids.filter fun e => decide (0 < ticks_diff e.2 s.now),
    stat := s.stat ++
      ((s.rcv_pids.filter fun e => decide (ticks_diff e.2 s.now ≤ 0)).map
        fun e => (e.1, 0)),
    sweeps := s.sweeps + 1 }

/-- The PUBACK block of `wait_msg` (source lines 388-398).  `sz` must be
the single byte 2 (a `None` read also fails this comparison, as in
Python); a known pid is resolved with status 1, an unknown one is
reported with status 2. -/
def step_puback (op : Nat) (s : WM) : Except Err Unit × WM :=
  if op = 0x40 then
    let (r, s1) := read_n 1 s
    match r with
    | .error e => (.error e, s1)
    | .ok sz =>
      if sz ≠ some [0x02] then (.error (.mqtt (-1)), s1)
      else
        let (r2, s2) := read_n 2 s1
        match r2 with
        | .error e => (.error e, s2)
        | .ok none => (.error .typeError, s2)
        | .ok (some pb) =>
          let rcv_pid := int_from_bytes pb
          if (s2.rcv_pids.lookup rcv_pid).isSome then
            (.ok (), { s2 with
              last_rcommand := s2.now,
              rcv_pids := s2.rcv_pids.filter fun e => decide (e.1 ≠ rcv_pid),
              stat := s2.stat ++ [(rcv_pid, 1)] })
          else (.ok (), { s2 with stat := s2.stat ++ [(rcv_pid, 2)] })
  else (.ok (), s)

/-- The SUBACK block of `wait_msg` (source lines 400-418): 4 bytes are
read (remaining length, pid high, pid low, return code); bad remaining
length or return code raises; a known pid is resolved with status 1; an
unknown pid raises `MQTTException(5)`. -/
def step_suback (op : Nat) (s : WM) : Except Err Unit × WM :=
  if op = 0x90 then
    let (r, s1) := read_n 4 s
    match r with
    | .error e => (.error e, s1)
    | .ok none => (.error .typeError, s1)
    | .ok (some resp) =>
      if resp.getD 0 0 ≠ 0x03 then (.error (.mqttResp 40 resp), s1)
      else if resp.getD 3 0 = 0x80 then (.error (.mqtt 44), s1)
      else if ¬(resp.getD 3 0 = 0 ∨ resp.getD 3 0 = 1 ∨ resp.getD 3 0 = 2) then
        (.error (.mqttResp 40 resp), s1)
      else
        let pid := resp.getD 2 0 ||| ((resp.getD 1 0) <<< 8)
        if (s1.rcv_pids.lookup pid).isSome then
          (.ok (), { s1 with
            last_rcommand := s1.now,
            rcv_pids := s1.rcv_pids.filter fun e => decide (e.1 ≠ pid),
            stat := s1.stat ++ [(pid, 1)] })
        else (.error (.mqtt 5), s1)
  else (.ok (), s)

/-- `MQTTClient._recv_len` run against the transport (source lines
120-133): one `_read(1)` per iteration; a timed-out read raises
`TypeError` (Python subscripts `None`).  The fuel argument only bounds
the loop; it is chosen so large that it never runs out (the loop
consumes one prescribed read per iteration). -/
def recv_len_wm : Nat → Nat → Nat → WM → Except Err Nat × WM
  | 0, _, _, s => (.error .typeError, s)
  | fuel + 1, sh, n, s =>
    let (r, s1) := read_n 1 s
    match r with
    | .error e => (.error e, s1)
    | .ok none => (.error .typeError, s1)
    | .ok (some l) =>
      let b := l.headD 0
      let n2 := n ||| ((b &&& 0x7f) <<< sh)
      if b &&& 0x80 = 0 then (.ok n2, s1)
      else recv_len_wm fuel (sh + 7) n2 s1

def recv_len (s : WM) : Except Err Nat × WM :=
  recv_len_wm (s.reads.length + 1) 0 0 s

/-- Tail of the PUBLISH block of `wait_msg` (source lines 431-439), after
the packet id has been determined: read the payload, invoke the message
callback, and either send a PUBACK (QoS bits = 2) or raise (QoS bits =
4). -/
def publish_fin (op pid : Nat) (topic : Option Bytes) (szI : Int)
    (s : WM) : Except Err (Option Nat) × WM :=
  let (rm, s1) := read_n szI s
  match rm with
  | .error e => (.error e, s1)
  | .ok msg =>
    let retained := op &&& 0x01
    let s2 := { s1 with
      msgs := s1.msgs ++ [(topic, msg, retained != 0)],
      last_rcommand := s1.now }
    if op &&& 6 = 2 then
      (.ok none, { s2 with writes := s2.writes ++ [0x40, 0x02] ++ to_bytes_2 pid })
    else if op &&& 6 = 4 then (.error (.mqtt (-1)), s2)
    else (.ok none, s2)

/-- The PUBLISH block of `wait_msg` (source lines 424-439).  Note that
the 2-byte packet id of a QoS>0 publish is read with a raw
`self.sock.read(2)` (line 429), not `self._read(2)`: no short-read or
closed-connection check is applied to it. -/
def step_publish (op : Nat) (s : WM) : Except Err (Option Nat) × WM :=
  let (rsz, s1) := recv_len s
  match rsz with
  | .error e => (.error e, s1)
  | .ok sz0 =>
    let (rt, s2) := read_n 2 s1
    match rt with
    | .error e => (.error e, s2)
    | .ok none => (.error .typeError, s2)
    | .ok (some tl) =>
      let topic_len := int_from_bytes tl
      let (rtop, s3) := read_n (topic_len : Int) s2
      match rtop with
      | .error e => (.error e, s3)
      | .ok topic =>
        let sz1 : Int := (sz0 : Int) - (topic_len : Int) - 2
        if op &&& 6 ≠ 0 then
          let (rp, s4) := sock_read s3
          match rp with
          | none => (.error .typeError, s4)
          | some pb => publish_fin op (int_from_bytes pb) topic (sz1 - 2) s4
        else publish_fin op 0 topic sz1 s3

/-- `MQTTClient.wait_msg` (source lines 363-439): one dispatch step. -/
def wait_msg (s : WM) : Except Err (Option Nat) × WM :=
  let (r, s1) := read_n 1 s
  match r with
  | .error e => (.error e, s1)
  | .ok none => (.ok none, message_timeout s1)
  | .ok (some res) =>
    if res = [0xd0] then
      let (r2, s2) := read_n 1 s1
      match r2 with
      | .error e => (.error e, s2)
      | .ok none => (.error .typeError, s2)
      | .ok (some _) => (.ok none, { s2 with last_rcommand := s2.now })
    else
      let op := res.headD 0
      match step_puback op s1 with
      | (.error e, s2) => (.error e, s2)
      | (.ok _, s2) =>
        match step_suback op s2 with
        | (.error e, s3) => (.error e, s3)
        | (.ok _, s3) =>
          let s4 := message_timeout s3
          if op &&& 0xf0 ≠ 0x30 then (.ok (some op), s4)
          else step_publish op s4

/-! ## Invariance lemmas for the dispatch step -/

theorem read_n_inv (n : Int) (s : WM) :
    ((read_n n s).2).sweeps = s.sweeps ∧ ((read_n n s).2).now = s.now ∧
    ((read_n n s).2).rcv_pids = s.rcv_pids ∧ ((read_n n s).2).stat = s.stat ∧
    ((read_n n s).2).msgs = s.msgs ∧ ((read_n n s).2).writes = s.writes := by
  unfold read_n sock_read
  rcases hr : s.reads with _ | ⟨r, rest⟩ <;> simp only [hr]
  · simp
  · rcases r with _ | l
    · simp
    · by_cases h1 : l = []
      · simp [h1]
      · by_cases h2 : (l.length : Int) = n <;> simp [h1, h2]

theorem read_n_nil (n : Int) (s : WM) (h : s.reads = []) :
    read_n n s = (.ok none, s) := by
  unfold read_n sock_read
  rw [h]

theorem read_n_none (n : Int) (s : WM) (rest : List (Option Bytes))
    (h : s.reads = none :: rest) :
    read_n n s = (.ok none, { s with reads := rest }) := by
  unfold read_n sock_read
  rw [h]

theorem read_n_some (n : Int) (s : WM) (l : Bytes) (rest : List (Option Bytes))
    (h : s.reads = some l :: rest) (h1 : l ≠ []) (h2 : (l.length : Int) = n) :
    read_n n s = (.ok (some l), { s with reads := rest, last_rx := s.now }) := by
  unfold read_n sock_read
  rw [h]
  simp [h1, h2]

theorem step_puback_inv (op : Nat) (s : WM) :
    ((step_puback op s).2).sweeps = s.sweeps ∧ ((step_puback op s).2).now = s.now := by
  unfold step_puback
  split
  · rcases hr : read_n 1 s with ⟨r1, s1⟩
    have h1 := read_n_inv 1 s
    rw [hr] at h1
    try rw [hr]
    rcases r1 with e | sz
    · exact ⟨h1.1, h1.2.1⟩
    · dsimp only
      by_cases hsz : sz = some [0x02]
      · subst hsz
        rw [if_neg (show ¬(some [0x02] ≠ some [0x02]) by simp)]
        rcases hr2 : read_n 2 s1 with ⟨r2, s2⟩
        have h2 := read_n_inv 2 s1
        rw [hr2] at h2
        try rw [hr2]
        rcases r2 with e | o
        · exact ⟨h2.1.trans h1.1, h2.2.1.trans h1.2.1⟩
        · rcases o with _ | pb
          · exact ⟨h2.1.trans h1.1, h2.2.1.trans h1.2.1⟩
          · dsimp only
            split <;>
              exact ⟨h2.1.trans h1.1, h2.2.1.trans h1.2.1⟩
      · rw [if_pos hsz]
        exact ⟨h1.1, h1.2.1⟩
  · exact ⟨rfl, rfl⟩

theorem step_suback_inv (op : Nat) (s : WM) :
    ((step_suback op s).2).sweeps = s.sweeps ∧ ((step_suback op s).2).now = s.now := by
  unfold step_suback
  split
  · rcases hr : read_n 4 s with ⟨r1, s1⟩
    have h1 := read_n_inv 4 s
    rw [hr] at h1
    try rw [hr]
    rcases r1 with e | o
    · exact ⟨h1.1, h1.2.1⟩
    · rcases o with _ | resp
      · exact ⟨h1.1, h1.2.1⟩
      · dsimp only
        split
        · exact ⟨h1.1, h1.2.1⟩
        · split
          · exact ⟨h1.1, h1.2.1⟩
          · split
            · exact ⟨h1.1, h1.2.1⟩
            · split <;> exact ⟨h1.1, h1.2.1⟩
  · exact ⟨rfl, rfl⟩

theorem recv_len_wm_inv : ∀ fuel sh n (s : WM),
    ((recv_len_wm fuel sh n s).2).sweeps = s.sweeps ∧
    ((recv_len_wm fuel sh n s).2).now = s.now ∧
    ((recv_len_wm fuel sh n s).2).rcv_pids = s.rcv_pids ∧
    ((recv_len_wm fuel sh n s).2).stat = s.stat ∧
    ((recv_len_wm fuel sh n s).2).msgs = s.msgs ∧
    ((recv_len_wm fuel sh n s).2).writes = s.writes := by
  intro fuel
  induction fuel with
  | zero => intro sh n s; exact ⟨rfl, rfl, rfl, rfl, rfl, rfl⟩
  | succ f ih =>
    intro sh n s
    unfold recv_len_wm
    rcases hr : read_n 1 s with ⟨r1, s1⟩
    have h1 := read_n_inv 1 s
    rw [hr] at h1
    try rw [hr]
    rcases r1 with e | o
    · exact h1
    · rcases o with _ | l
      · exact h1
      · dsimp only
        split
        · exact h1
        · obtain ⟨a1, a2, a3, a4, a5, a6⟩ := ih (sh + 7) (n ||| ((l.headD 0 &&& 127) <<< sh)) s1
          obtain ⟨b1, b2, b3, b4, b5, b6⟩ := h1
          exact ⟨a1.trans b1, a2.trans b2, a3.trans b3, a4.trans b4,
            a5.trans b5, a6.trans b6⟩

theorem publish_fin_inv (op pid : Nat) (topic : Option Bytes) (szI : Int) (s : WM) :
    ((publish_fin op pid topic szI s).2).sweeps = s.sweeps ∧
    ((publish_fin op pid topic szI s).2).now = s.now ∧
    ((publish_fin op pid topic szI s).2).rcv_pids = s.rcv_pids := by
  unfold publish_fin
  rcases hr : read_n szI s with ⟨r1, s1⟩
  have h1 := read_n_inv szI s
  rw [hr] at h1
  try rw [hr]
  rcases r1 with e | msg
  · exact ⟨h1.1, h1.2.1, h1.2.2.1⟩
  · dsimp only
    split
    · exact ⟨h1.1, h1.2.1, h1.2.2.1⟩
    · split <;> exact ⟨h1.1, h1.2.1, h1.2.2.1⟩

theorem sock_read_inv (s : WM) :
    ((sock_read s).2).sweeps = s.sweeps ∧ ((sock_read s).2).now = s.now ∧
    ((sock_read s).2).rcv_pids = s.rcv_pids := by
  unfold sock_read
  rcases hr : s.reads with _ | ⟨r, rest⟩ <;> exact ⟨rfl, rfl, rfl⟩

theorem step_publish_inv (op : Nat) (s : WM) :
    ((step_publish op s).2).sweeps = s.sweeps ∧
    ((step_publish op s).2).now = s.now ∧
    ((step_publish op s).2).rcv_pids = s.rcv_pids := by
  unfold step_publish recv_len
  rcases hr : recv_len_wm (s.reads.length + 1) 0 0 s with ⟨r1, s1⟩
  have h1 := recv_len_wm_inv (s.reads.length + 1) 0 0 s
  rw [hr] at h1
  try rw [hr]
  rcases r1 with e | sz0
  · exact ⟨h1.1, h1.2.1, h1.2.2.1⟩
  · dsimp only
    rcases hr2 : read_n 2 s1 with ⟨r2, s2⟩
    have h2 := read_n_inv 2 s1
    rw [hr2] at h2
    try rw [hr2]
    have comp2 : s2.sweeps = s.sweeps ∧ s2.now = s.now ∧ s2.rcv_pids = s.rcv_pids :=
      ⟨h2.1.trans h1.1, h2.2.1.trans h1.2.1, h2.2.2.1.trans h1.2.2.1⟩
    rcases r2 with e | o
    · exact comp2
    · rcases o with _ | tl
      · exact comp2
      · dsimp only
        rcases hr3 : read_n ((int_from_bytes tl : Nat) : Int) s2 with ⟨r3, s3⟩
        have h3 := read_n_inv ((int_from_bytes tl : Nat) : Int) s2
        rw [hr3] at h3
        try rw [hr3]
        have comp3 : s3.sweeps = s.sweeps ∧ s3.now = s.now ∧ s3.rcv_pids = s.rcv_pids :=
          ⟨h3.1.trans comp2.1, h3.2.1.trans comp2.2.1, h3.2.2.1.trans comp2.2.2⟩
        rcases r3 with e | topic
        · exact comp3
        · dsimp only
          split
          · rcases hr4 : sock_read s3 with ⟨r4, s4⟩
            have h4 := sock_read_inv s3
            rw [hr4] at h4
            try rw [hr4]
            have comp4 : s4.sweeps = s.sweeps ∧ s4.now = s.now ∧ s4.rcv_pids = s.rcv_pids :=
              ⟨h4.1.trans comp3.1, h4.2.1.trans comp3.2.1, h4.2.2.trans comp3.2.2⟩
            rcases r4 with _ | pb
            · exact comp4
            · have h5 := publish_fin_inv op (int_from_bytes pb) topic
                ((sz0 : Int) - ((int_from_bytes tl : Nat) : Int) - 2 - 2) s4
              exact ⟨h5.1.trans comp4.1, h5.2.1.trans comp4.2.1, h5.2.2.trans comp4.2.2⟩
          · have h5 := publish_fin_inv op 0 topic
              ((sz0 : Int) - ((int_from_bytes tl : Nat) : Int) - 2) s3
            exact ⟨h5.1.trans comp3.1, h5.2.1.trans comp3.2.1, h5.2.2.trans comp3.2.2⟩

theorem mem_message_timeout {s : WM} {e : Nat × Nat}
    (h : e ∈ (message_timeout s).rcv_pids) : 0 < ticks_diff e.2 s.now := by
  unfold message_timeout at h
  dsimp only at h
  simp only [List.mem_filter] at h
  exact of_decide_eq_true h.2

theorem read_n_head {n : Int} {s : WM} {l : Bytes}
    (h : (read_n n s).1 = .ok (some l)) : s.reads.head? = some (some l) := by
  unfold read_n sock_read at h
  rcases hr : s.reads with _ | ⟨r, rest⟩
  · rw [hr] at h
    simp at h
  · rw [hr] at h
    rcases r with _ | l2
    · simp at h
    · by_cases h1 : l2 = []
      · simp [h1] at h
      · by_cases h2 : ((l2.length : Int) = n)
        · simp only [h1, h2, if_neg, ite_false, if_false] at h
          simp at h
          simp [hr, h]
        · simp [h1, h2] at h

/-! ## C1: the pending-ack sweep in the dispatch step -/

/-- C1 counterexample: an invocation of `wait_msg` that receives a
PINGRESP (first byte 0xd0) returns without running the pending-ack
sweep, although the table holds an entry whose deadline has passed
(`ticks_diff 900 1000 = -100 ≤ 0`): the entry survives and no status
callback is invoked. -/
theorem c1_counterexample :
    wait_msg
      { reads := [some [0xd0], some [0]], rcv_pids := [(5, 900)],
        stat := [], msgs := [], writes := [], sweeps := 0, now := 1000,
        last_rx := 0, last_rcommand := 0 } =
      (.ok none,
        { reads := [], rcv_pids := [(5, 900)], stat := [], msgs := [],
          writes := [], sweeps := 0, now := 1000, last_rx := 1000,
          last_rcommand := 1000 }) ∧
    ticks_diff 900 1000 ≤ 0 := by
  exact ⟨rfl, by decide⟩

/-- C1 (amended): the pending-ack sweep runs on every invocation of
`wait_msg` that returns normally — including the timeout/none-read path,
which returns exactly the swept state — EXCEPT the PINGRESP path (first
byte 0xd0), which returns early without sweeping.  The sweep removes
every entry whose deadline has passed under wraparound-safe comparison
and reports status 0 for it; consequently, on every normal return whose
first byte is not 0xd0, the sweep ran exactly once and no expired entry
survives in the table. -/
theorem c1_sweep_on_dispatch :
    (∀ s rest, s.reads = none :: rest →
      wait_msg s = (.ok none, message_timeout { s with reads := rest })) ∧
    (∀ s r s2, wait_msg s = (.ok r, s2) → s.reads.head? ≠ some (some [0xd0]) →
      s2.sweeps = s.sweeps + 1 ∧ ∀ e ∈ s2.rcv_pids, 0 < ticks_diff e.2 s.now) ∧
    (∀ s, (message_timeout s).rcv_pids =
        s.rcv_pids.filter (fun e => decide (0 < ticks_diff e.2 s.now)) ∧
      (message_timeout s).stat = s.stat ++
        ((s.rcv_pids.filter fun e => decide (ticks_diff e.2 s.now ≤ 0)).map
          fun e => (e.1, 0))) := by
  refine ⟨?_, ?_, fun s => ⟨rfl, rfl⟩⟩
  · intro s rest h
    unfold wait_msg
    rw [read_n_none 1 s rest h]
  · intro s r s2 hwm hping
    unfold wait_msg at hwm
    rcases hr : read_n 1 s with ⟨r1, s1⟩
    rw [hr] at hwm
    have h1 := read_n_inv 1 s
    rw [hr] at h1
    rcases r1 with e | o
    · simp at hwm
    · rcases o with _ | res
      · dsimp only at hwm
        injection hwm with hre hs2
        constructor
        · rw [← hs2]
          have hmt : (message_timeout s1).sweeps = s1.sweeps + 1 := rfl
          rw [hmt, h1.1]
        · intro e he
          rw [← hs2] at he
          have := mem_message_timeout he
          rwa [h1.2.1] at this
      · have hhead : s.reads.head? = some (some res) := read_n_head (by rw [hr])
        have hres : res ≠ [0xd0] := by
          intro hcon
          rw [hcon] at hhead
          exact hping hhead
        dsimp only at hwm
        rw [if_neg hres] at hwm
        rcases hpa : step_puback (res.headD 0) s1 with ⟨rpa, s2a⟩
        rw [hpa] at hwm
        have hinv_pa := step_puback_inv (res.headD 0) s1
        rw [hpa] at hinv_pa
        rcases rpa with e | u
        · simp at hwm
        · dsimp only at hwm
          rcases hsa : step_suback (res.headD 0) s2a with ⟨rsa, s3⟩
          rw [hsa] at hwm
          have hinv_sa := step_suback_inv (res.headD 0) s2a
          rw [hsa] at hinv_sa
          rcases rsa with e | u2
          · simp at hwm
          · dsimp only at hwm
            have hn3 : s3.now = s.now := by
              have a1 : s3.now = s2a.now := hinv_sa.2
              have a2 : s2a.now = s1.now := hinv_pa.2
              rw [a1, a2, h1.2.1]
            have hsw3 : s3.sweeps = s.sweeps := by
              have a1 : s3.sweeps = s2a.sweeps := hinv_sa.1
              have a2 : s2a.sweeps = s1.sweeps := hinv_pa.1
              rw [a1, a2, h1.1]
            split at hwm
            · injection hwm with hre hs2
              constructor
              · rw [← hs2]
                have hmt : (message_timeout s3).sweeps = s3.sweeps + 1 := rfl
                rw [hmt, hsw3]
              · intro e he
                rw [← hs2] at he
                have := mem_message_timeout he
                rwa [hn3] at this
            · have hinv_sp := step_publish_inv (res.headD 0) (message_timeout s3)
              rw [hwm] at hinv_sp
              have hA : s2.sweeps = (message_timeout s3).sweeps := hinv_sp.1
              have hB : s2.rcv_pids = (message_timeout s3).rcv_pids := hinv_sp.2.2
              constructor
              · have hmt : (message_timeout s3).sweeps = s3.sweeps + 1 := rfl
                rw [hA, hmt, hsw3]
              · intro e he
                rw [hB] at he
                have := mem_message_timeout he
                rwa [hn3] at this

/-- Witness for C1 (amended) on the timeout/none-read path. -/
theorem c1_sweep_on_dispatch_witness :
    wait_msg
      { reads := [none], rcv_pids := [(5, 900)], stat := [], msgs := [],
        writes := [], sweeps := 0, now := 1000, last_rx := 0,
        last_rcommand := 0 } =
      (.ok none, message_timeout
        { reads := [], rcv_pids := [(5, 900)],
          stat := [], msgs := [], writes := [], sweeps := 0, now := 1000,
          last_rx := 0, last_rcommand := 0 }) :=
  c1_sweep_on_dispatch.1 _ [] rfl

/-! ## C3: unknown packet id on PUBACK vs SUBACK -/

theorem int_from_bytes_to_bytes_2 (pid : Nat) (h : pid < 65536) :
    int_from_bytes (to_bytes_2 pid) = pid := by
  unfold int_from_bytes to_bytes_2
  simp only [List.foldl_cons, List.foldl_nil]
  omega

theorem step_puback_skip (op : Nat) (s : WM) (h : op ≠ 0x40) :
    step_puback op s = (.ok (), s) := by
  unfold step_puback
  rw [if_neg h]

theorem step_suback_skip (op : Nat) (s : WM) (h : op ≠ 0x90) :
    step_suback op s = (.ok (), s) := by
  unfold step_suback
  rw [if_neg h]

theorem step_puback_unknown (s : WM) (pid : Nat) (rest : List (Option Bytes))
    (hpid : pid < 65536) (hlook : s.rcv_pids.lookup pid = none)
    (hreads : s.reads = some [0x02] :: some (to_bytes_2 pid) :: rest) :
    step_puback 0x40 s =
      (.ok (), { s with
          reads := rest, last_rx := s.now,
          stat := s.stat ++ [(pid, 2)] }) := by
  unfold step_puback
  rw [if_pos rfl]
  rw [read_n_some 1 s [0x02] _ hreads (by simp) (by simp)]
  dsimp only
  rw [if_neg (show ¬(some [0x02] ≠ some [0x02]) by simp)]
  rw [read_n_some 2 _ (to_bytes_2 pid) rest rfl (by simp [to_bytes_2])
    (by simp [to_bytes_2])]
  dsimp only
  rw [int_from_bytes_to_bytes_2 pid hpid, hlook]
  rw [if_neg (by simp)]

/-- C3: in the dispatch step, a PUBACK whose pid is not in the
pending-ack table reports status 2 via the status callback, leaves the
table unchanged and returns normally (the raw type byte), whereas a
well-formed SUBACK whose pid is not in the table raises the fatal
`MQTTException(5)` without invoking the status callback and without
touching the table. -/
theorem c3_unknown_pid :
    (∀ (s : WM) pid rest, pid < 65536 → s.rcv_pids.lookup pid = none →
      (∀ e ∈ s.rcv_pids, 0 < ticks_diff e.2 s.now) →
      s.reads = some [0x40] :: some [0x02] :: some (to_bytes_2 pid) :: rest →
      ∃ s2, wait_msg s = (.ok (some 0x40), s2) ∧
        s2.rcv_pids = s.rcv_pids ∧ s2.stat = s.stat ++ [(pid, 2)]) ∧
    (∀ (s : WM) hi lo rc rest, (rc = 0 ∨ rc = 1 ∨ rc = 2) →
      s.rcv_pids.lookup (lo ||| (hi <<< 8)) = none →
      s.reads = some [0x90] :: some [3, hi, lo, rc] :: rest →
      ∃ s2, wait_msg s = (.error (.mqtt 5), s2) ∧
        s2.rcv_pids = s.rcv_pids ∧ s2.stat = s.stat) := by
  constructor
  · intro s pid rest hpid hlook hfresh hreads
    refine ⟨message_timeout
      { reads := rest, rcv_pids := s.rcv_pids, stat := s.stat ++ [(pid, 2)],
        msgs := s.msgs, writes := s.writes, sweeps := s.sweeps, now := s.now,
        last_rx := s.now, last_rcommand := s.last_rcommand }, ?_, ?_, ?_⟩
    · unfold wait_msg
      rw [read_n_some 1 s [0x40] _ hreads (by simp) (by simp)]
      dsimp only [List.headD]
      rw [if_neg (show ¬([0x40] : Bytes) = [0xd0] by simp)]
      rw [step_puback_unknown
        { reads := some [0x02] :: some (to_bytes_2 pid) :: rest,
          rcv_pids := s.rcv_pids, stat := s.stat, msgs := s.msgs,
          writes := s.writes, sweeps := s.sweeps, now := s.now,
          last_rx := s.now, last_rcommand := s.last_rcommand }
        pid rest hpid hlook rfl]
      dsimp only
      rw [step_suback_skip 0x40 _ (by decide)]
      dsimp only
      rw [if_pos (by decide)]
    · show (message_timeout _).rcv_pids = s.rcv_pids
      unfold message_timeout
      dsimp only
      exact List.filter_eq_self.mpr fun e he => decide_eq_true (hfresh e he)
    · show (message_timeout _).stat = s.stat ++ [(pid, 2)]
      unfold message_timeout
      dsimp only
      rw [List.filter_eq_nil_iff.mpr]
      · simp
      · intro e he
        have := hfresh e he
        simp only [decide_eq_true_eq]
        omega
  · intro s hi lo rc rest hrc hlook hreads
    refine ⟨{
        reads := rest, rcv_pids := s.rcv_pids, stat := s.stat,
        msgs := s.msgs, writes := s.writes, sweeps := s.sweeps, now := s.now,
        last_rx := s.now, last_rcommand := s.last_rcommand }, ?_, rfl, rfl⟩
    unfold wait_msg
    rw [read_n_some 1 s [0x90] _ hreads (by simp) (by simp)]
    dsimp only [List.headD]
    rw [if_neg (show ¬([0x90] : Bytes) = [0xd0] by simp)]
    rw [step_puback_skip 0x90 _ (by decide)]
    dsimp only
    unfold step_suback
    rw [if_pos rfl]
    rw [read_n_some 4 _ [3, hi, lo, rc] rest rfl (by simp) (by simp)]
    dsimp only
    rcases hrc with rfl | rfl | rfl <;>
    · rw [if_neg (by simp), if_neg (by simp), if_neg (by simp)]
      simp only [List.getD_cons_succ, List.getD_cons_zero]
      rw [hlook]
      rw [if_neg (by simp)]

/-- Witness for C3: concrete unknown-pid PUBACK and SUBACK runs. -/
theorem c3_unknown_pid_witness :
    (∃ s2, wait_msg
        { reads := [some [0x40], some [0x02], some (to_bytes_2 7)],
          rcv_pids := [(5, 2000)], stat := [], msgs := [], writes := [],
          sweeps := 0, now := 1000, last_rx := 0, last_rcommand := 0 } =
        (.ok (some 0x40), s2) ∧
      s2.rcv_pids = [(5, 2000)] ∧ s2.stat = [] ++ [(7, 2)]) ∧
    (∃ s2, wait_msg
        { reads := [some [0x90], some [3, 0, 7, 1]],
          rcv_pids := [(5, 2000)], stat := [], msgs := [], writes := [],
          sweeps := 0, now := 1000, last_rx := 0, last_rcommand := 0 } =
        (.error (.mqtt 5), s2) ∧
      s2.rcv_pids = [(5, 2000)] ∧ s2.stat = []) :=
  ⟨c3_unknown_pid.1 _ 7 [] (by decide) (by decide) (by decide) rfl,
   c3_unknown_pid.2 _ 0 7 1 [] (by decide) (by decide) rfl⟩

/-! ## C6: inbound PUBLISH handling -/

theorem varint_acc_lt (v sh n : Nat) (hn : n < 2 ^ sh) :
    n ||| ((v &&& 127) <<< sh) < 2 ^ (sh + 7) := by
  rw [and_127_eq_mod v, lor_shiftLeft_eq_add _ hn]
  have hpow : (2 : Nat) ^ (sh + 7) = 2 ^ sh * 128 := by rw [pow_add]; norm_num
  rw [hpow]
  have : v % 128 < 128 := Nat.mod_lt _ (by omega)
  nlinarith [Nat.pos_pow_of_pos sh (show 0 < 2 by omega)]

theorem varint_step_arith (v sh n : Nat) (hn : n < 2 ^ sh) :
    (n ||| ((v &&& 127) <<< sh)) + (v >>> 7) * 2 ^ (sh + 7) = n + v * 2 ^ sh := by
  rw [and_127_eq_mod v, lor_shiftLeft_eq_add _ hn]
  have hdiv : v >>> 7 = v / 128 := by rw [Nat.shiftRight_eq_div_pow]
  have hpow : (2 : Nat) ^ (sh + 7) = 2 ^ sh * 128 := by rw [pow_add]; norm_num
  rw [hdiv, hpow]
  have hvm : 128 * (v / 128) + v % 128 = v := Nat.div_add_mod v 128
  nlinarith [hvm]

theorem recv_len_wm_encode (v : Nat) : ∀ fuel sh n (s : WM) rest,
    (varlen_bytes v).length ≤ fuel → n < 2 ^ sh →
    s.reads = ((varlen_bytes v).map fun b => some [b]) ++ rest →
    recv_len_wm fuel sh n s =
      (.ok (n + v * 2 ^ sh), { s with reads := rest, last_rx := s.now }) := by
  induction v using Nat.strong_induction_on with
  | _ v ih =>
    intro fuel sh n s rest hfuel hn hreads
    rw [varlen_bytes] at hreads hfuel
    by_cases h : v > 127
    · rw [if_pos h] at hreads hfuel
      simp only [List.map_cons, List.cons_append] at hreads
      simp only [List.length_cons] at hfuel
      obtain ⟨f, rfl⟩ : ∃ f, fuel = f + 1 := ⟨fuel - 1, by omega⟩
      unfold recv_len_wm
      rw [read_n_some 1 s _ _ hreads (by simp) (by simp)]
      dsimp only [List.headD]
      have hlow : v &&& 127 < 128 := by rw [and_127_eq_mod]; omega
      have hfacts := low_byte_facts (v &&& 127) hlow
      simp only [hfacts.1, hfacts.2.1]
      rw [if_neg (by omega)]
      have hdiv : v >>> 7 = v / 128 := by rw [Nat.shiftRight_eq_div_pow]
      have hlt : v >>> 7 < v := by
        rw [hdiv]
        exact Nat.div_lt_self (by omega) (by norm_num)
      rw [ih (v >>> 7) hlt f (sh + 7) _ _ rest (by omega)
        (varint_acc_lt v sh n hn) rfl]
      rw [varint_step_arith v sh n hn]
    · rw [if_neg h] at hreads hfuel
      simp only [List.map_cons, List.map_nil, List.cons_append,
        List.nil_append] at hreads
      simp only [List.length_singleton] at hfuel
      obtain ⟨f, rfl⟩ : ∃ f, fuel = f + 1 := ⟨fuel - 1, by omega⟩
      unfold recv_len_wm
      rw [read_n_some 1 s _ _ hreads (by simp) (by simp)]
      dsimp only [List.headD]
      have hfacts := low_byte_facts v (by omega)
      simp only [hfacts.2.2.1, hfacts.2.2.2.1, if_true]
      rw [lor_shiftLeft_eq_add v hn]

theorem step_publish_spec (s : WM) (op : Nat) (topic msg : Bytes) (pid : Nat)
    (rest : List (Option Bytes))
    (h6 : op &&& 6 = 2 ∨ op &&& 6 = 4)
    (htl : 0 < topic.length) (htl2 : topic.length < 65536)
    (hml : 0 < msg.length) (hpid : pid < 65536)
    (hreads : s.reads =
      ((varlen_bytes (2 + topic.length + 2 + msg.length)).map fun b => some [b]) ++
        some (to_bytes_2 topic.length) :: some topic ::
        some (to_bytes_2 pid) :: some msg :: rest) :
    step_publish op s =
      if op &&& 6 = 2 then
        (.ok none, { s with
            reads := rest, last_rx := s.now, last_rcommand := s.now,
            msgs := s.msgs ++ [(some topic, some msg, op &&& 1 != 0)],
            writes := s.writes ++ [0x40, 0x02] ++ to_bytes_2 pid })
      else
        (.error (.mqtt (-1)), { s with
            reads := rest, last_rx := s.now, last_rcommand := s.now,
            msgs := s.msgs ++ [(some topic, some msg, op &&& 1 != 0)] }) := by
  unfold step_publish recv_len
  have hfuel : (varlen_bytes (2 + topic.length + 2 + msg.length)).length ≤
      s.reads.length + 1 := by
    rw [hreads]
    simp only [List.length_append, List.length_map, List.length_cons]
    omega
  rw [recv_len_wm_encode _ _ 0 0 s _ hfuel (by norm_num) hreads]
  dsimp only
  have hv : 0 + (2 + topic.length + 2 + msg.length) * 2 ^ 0 =
      2 + topic.length + 2 + msg.length := by ring
  rw [hv]
  rw [read_n_some 2 _ (to_bytes_2 topic.length) _ rfl (by simp [to_bytes_2])
    (by simp [to_bytes_2])]
  dsimp only
  rw [int_from_bytes_to_bytes_2 _ htl2]
  rw [read_n_some _ _ topic _ rfl (List.length_pos.mp htl) rfl]
  dsimp only
  have h60 : op &&& 6 ≠ 0 := by rcases h6 with h | h <;> omega
  rw [if_pos h60]
  dsimp only [sock_read]
  rw [int_from_bytes_to_bytes_2 _ hpid]
  unfold publish_fin
  rw [read_n_some _ _ msg rest rfl (List.length_pos.mp hml) (by push_cast; ring)]
  dsimp only
  rcases h6 with h2 | h4
  · rw [if_pos h2, if_pos h2]
  · have hne : ¬(op &&& 6 = 2) := by omega
    rw [if_neg hne, if_pos h4, if_neg hne]

theorem wait_msg_publish_path (s : WM) (op : Nat) (rest : List (Option Bytes))
    (hreads : s.reads = some [op] :: rest) (hop : op &&& 0xf0 = 0x30) :
    wait_msg s =
      step_publish op (message_timeout { s with
        reads := rest, last_rx := s.now }) := by
  have hop40 : op ≠ 0x40 := by
    intro hc
    rw [hc] at hop
    exact absurd hop (by decide)
  have hop90 : op ≠ 0x90 := by
    intro hc
    rw [hc] at hop
    exact absurd hop (by decide)
  have hopd0 : ([op] : Bytes) ≠ [0xd0] := by
    intro hc
    have h1 : op = 0xd0 := by
      have := List.head_eq_of_cons_eq hc
      exact this
    rw [h1] at hop
    exact absurd hop (by decide)
  unfold wait_msg
  rw [read_n_some 1 s [op] rest hreads (by simp) (by simp)]
  dsimp only [List.headD]
  rw [if_neg hopd0]
  rw [step_puback_skip op _ hop40]
  dsimp only
  rw [step_suback_skip op _ hop90]
  dsimp only
  rw [if_neg (not_not_intro hop)]

/-- C6 counterexample: an inbound QoS-1 PUBLISH with a zero-length
payload (type byte 0x32, remaining length 5 = 2 + topic "a" + 2-byte
pid, no payload bytes) is NOT delivered and NOT acknowledged: the
payload read becomes `_read(0)`, `sock.read(0)` returns `b''`, and
`_read` raises the transport-closed error `MQTTException(1)` — the
message callback is never invoked and no PUBACK byte is written. -/
theorem c6_counterexample :
    (wait_msg
        { reads := [some [0x32], some [5], some [0, 1], some [97],
            some [0, 7], some []],
          rcv_pids := [], stat := [], msgs := [], writes := [], sweeps := 0,
          now := 1000, last_rx := 0, last_rcommand := 0 }).1 =
      .error (.mqtt 1) ∧
    (wait_msg
        { reads := [some [0x32], some [5], some [0, 1], some [97],
            some [0, 7], some []],
          rcv_pids := [], stat := [], msgs := [], writes := [], sweeps := 0,
          now := 1000, last_rx := 0, last_rcommand := 0 }).2.msgs = [] ∧
    (wait_msg
        { reads := [some [0x32], some [5], some [0, 1], some [97],
            some [0, 7], some []],
          rcv_pids := [], stat := [], msgs := [], writes := [], sweeps := 0,
          now := 1000, last_rx := 0, last_rcommand := 0 }).2.writes = [] :=
  ⟨rfl, rfl, rfl⟩

/-- C6 (amended): an inbound PUBLISH whose QoS bits (type byte & 0x06)
are 0x02 and whose topic and payload are non-empty is delivered to the
message callback as (topic, payload, retained) and then exactly the four
bytes 0x40 0x02 pid_hi pid_lo are written back as the PUBACK; with QoS
bits 0x04 (QoS 2) the dispatch step fails with the unsupported-packet
error `MQTTException(-1)`.  (A zero-length payload or topic instead
aborts the step with `MQTTException(1)` from `_read(0)`, as the
counterexample shows.) -/
theorem c6_inbound_publish :
    (∀ (s : WM) op topic msg pid rest,
      op &&& 0xf0 = 0x30 → op &&& 6 = 2 →
      0 < topic.length → topic.length < 65536 → 0 < msg.length → pid < 65536 →
      s.reads = some [op] ::
        (((varlen_bytes (2 + topic.length + 2 + msg.length)).map
            fun b => some [b]) ++
          some (to_bytes_2 topic.length) :: some topic ::
          some (to_bytes_2 pid) :: some msg :: rest) →
      ∃ s2, wait_msg s = (.ok none, s2) ∧
        s2.msgs = s.msgs ++ [(some topic, some msg, op &&& 1 != 0)] ∧
        s2.writes = s.writes ++ [0x40, 0x02, pid / 256 % 256, pid % 256]) ∧
    (∀ (s : WM) op topic msg pid rest,
      op &&& 0xf0 = 0x30 → op &&& 6 = 4 →
      0 < topic.length → topic.length < 65536 → 0 < msg.length → pid < 65536 →
      s.reads = some [op] ::
        (((varlen_bytes (2 + topic.length + 2 + msg.length)).map
            fun b => some [b]) ++
          some (to_bytes_2 topic.length) :: some topic ::
          some (to_bytes_2 pid) :: some msg :: rest) →
      (wait_msg s).1 = .error (.mqtt (-1))) := by
  constructor
  · intro s op topic msg pid rest hop h2 htl htl2 hml hpid hreads
    rw [wait_msg_publish_path s op _ hreads hop]
    rw [step_publish_spec _ op topic msg pid rest (Or.inl h2) htl htl2 hml
      hpid rfl]
    rw [if_pos h2]
    refine ⟨_, rfl, rfl, ?_⟩
    show (s.writes ++ [0x40, 0x02]) ++ to_bytes_2 pid =
      s.writes ++ [0x40, 0x02, pid / 256 % 256, pid % 256]
    simp [to_bytes_2]
  · intro s op topic msg pid rest hop h4 htl htl2 hml hpid hreads
    rw [wait_msg_publish_path s op _ hreads hop]
    rw [step_publish_spec _ op topic msg pid rest (Or.inr h4) htl htl2 hml
      hpid rfl]
    rw [if_neg (by omega)]

/-- Witness for C6 on a concrete QoS-1 inbound PUBLISH. -/
theorem c6_inbound_publish_witness :
    ∃ s2, wait_msg
        { reads := some [0x32] ::
            (((varlen_bytes (2 + List.length [97] + 2 + List.length [109])).map
                fun b => some [b]) ++
              some (to_bytes_2 (List.length [97])) :: some [97] ::
              some (to_bytes_2 7) :: some [109] :: []),
          rcv_pids := [], stat := [], msgs := [], writes := [], sweeps := 0,
          now := 1000, last_rx := 0, last_rcommand := 0 } =
        (.ok none, s2) ∧
      s2.msgs = [] ++ [(some [97], some [109], 0x32 &&& 1 != 0)] ∧
      s2.writes = [] ++ [0x40, 0x02, 7 / 256 % 256, 7 % 256] :=
  c6_inbound_publish.1 _ 0x32 [97] [109] 7 [] (by decide) (by decide)
    (by decide) (by decide) (by decide) (by decide) rfl

/-! ## C9: read/write byte-count checking

`read_result` is `MQTTClient._read(n)` as a function of what `sock.read`
returned, and `write_result` is `MQTTClient._write(bytes_wr, length)` as
a function of what `sock.write` returned (source lines 71-107). -/

def read_result (n : Int) (msg : Option Bytes) : Except Err (Option Bytes) :=
  if msg = some [] then .error (.mqtt 1)
  else match msg with
    | none => .ok none
    | some l => if (l.length : Int) ≠ n then .error (.mqtt 2) else .ok (some l)

def write_result (bytes_wr : Bytes) (length out : Int) : Except Err Int :=
  if length < 0 then
    if out ≠ (bytes_wr.length : Int) then .error (.mqtt 3) else .ok out
  else if out ≠ length then .error (.mqtt 3) else .ok out

/-- C9 (evaluating the code at the failing input): `_read` raises the
transport-closed error `MQTTException(1)` on a zero-byte read and the
framing error `MQTTException(2)` on a short read, and `_write` raises
`MQTTException(3)` on a short write — but the 2-byte packet-id field of
an inbound QoS>0 PUBLISH is read with a raw `sock.read(2)` (source line
429): when the transport returns only 1 byte there (`[7]`, which
`_read(2)` would reject as `MQTTException(2)`), `wait_msg` raises
nothing, silently misparses the pid as 7 and even acknowledges it
(PUBACK `0x40 0x02 0x00 0x07`). -/
theorem c9_short_read_checks :
    read_result 2 (some []) = .error (.mqtt 1) ∧
    read_result 2 (some [7]) = .error (.mqtt 2) ∧
    write_result [1, 2, 3] (-1) 2 = .error (.mqtt 3) ∧
    write_result [1, 2, 3] 3 2 = .error (.mqtt 3) ∧
    (wait_msg
        { reads := [some [0x32], some [6], some [0, 1], some [97], some [7],
            some [109]],
          rcv_pids := [], stat := [], msgs := [], writes := [], sweeps := 0,
          now := 1000, last_rx := 0, last_rcommand := 0 }).1 = .ok none ∧
    (wait_msg
        { reads := [some [0x32], some [6], some [0, 1], some [97], some [7],
            some [109]],
          rcv_pids := [], stat := [], msgs := [], writes := [], sweeps := 0,
          now := 1000, last_rx := 0, last_rcommand := 0 }).2.writes =
      [0x40, 0x02, 0x00, 0x07] := by
  refine ⟨rfl, rfl, rfl, rfl, rfl, rfl⟩

/-! ## C2: `MQTTClient.publish` (source lines 294-328)

`Pub` is the client state publish touches: the pending-ack table, the
pid-generator state, the bytes written to the transport (writes are
taken to be accepted in full; the short-write check is `write_result`
above), the current `ticks_ms()` value, and the configured
`message_timeout` (seconds). -/

structure Pub where
  rcv_pids : List (Nat × Nat)
  pid_state : Nat
  writes : Bytes
  now : Nat
  message_timeout : Nat
deriving DecidableEq, Repr

/-- Python dict assignment `d[k] = v`: overwrite in place if present,
else append. -/
def dict_insert (k v : Nat) (l : List (Nat × Nat)) : List (Nat × Nat) :=
  if (l.lookup k).isSome then
    l.map fun e => if e.1 = k then (k, v) else e
  else l ++ [(k, v)]

/-- `MQTTClient.publish(topic, msg, retain, qos, dup)`: `assert qos in
(0, 1)` comes before any write; the fixed-header byte is
`0x30 | qos << 1 | retain | dup << 3`; remaining length is
`2 + len(topic) + len(msg)` plus 2 when qos > 0 (checked against the
varint bound); then header, length-prefixed topic, (qos>0) the freshly
drawn pid, and the raw message are written; finally (qos>0) the pid is
registered with deadline `ticks_add(ticks_ms(), message_timeout * 1000)`
and returned. -/
def publish (topic msg : Bytes) (retain : Bool) (qos : Nat) (dup : Bool)
    (s : Pub) : Except Err (Option Nat) × Pub :=
  if ¬(qos = 0 ∨ qos = 1) then (.error .assertFail, s)
  else
    let pkt0 := 0x30 ||| (qos <<< 1) ||| (if retain then 1 else 0) |||
      ((if dup then 1 else 0) <<< 3)
    let sz := 2 + topic.length + msg.length + (if qos > 0 then 2 else 0)
    if ¬(sz < 268435456) then (.error .assertFail, s)
    else
      let s1 := { s with writes := s.writes ++ pkt0 :: varlen_bytes sz }
      if ¬(topic.length < 65536) then (.error .assertFail, s1)
      else
        let s2 := { s1 with
          writes := s1.writes ++ to_bytes_2 topic.length ++ topic }
        if qos > 0 then
          let pid := next_pid s.pid_state
          let s3 := { s2 with
            pid_state := pid,
            writes := s2.writes ++ to_bytes_2 pid ++ msg }
          (.ok (some pid), { s3 with
            rcv_pids := dict_insert pid
              (ticks_add s3.now (s3.message_timeout * 1000)) s3.rcv_pids })
        else (.ok none, { s2 with writes := s2.writes ++ msg })

/-- C2: publish with qos=1 draws a pid from the allocator, registers
exactly one pending-ack entry for it with deadline
now + message_timeout (in ms, `ticks_add(now, message_timeout * 1000)`)
and returns the pid; qos=0 returns nothing and leaves the table
unchanged; qos=2 fails the precondition `assert qos in (0, 1)` before
any bytes are written. -/
theorem c2_publish :
    (∀ (topic msg : Bytes) retain dup (s : Pub),
      2 + topic.length + msg.length + 2 < 268435456 → topic.length < 65536 →
      s.rcv_pids.lookup (next_pid s.pid_state) = none →
      ∃ s2, publish topic msg retain 1 dup s =
          (.ok (some (next_pid s.pid_state)), s2) ∧
        s2.rcv_pids = s.rcv_pids ++
          [(next_pid s.pid_state, ticks_add s.now (s.message_timeout * 1000))]) ∧
    (∀ (topic msg : Bytes) retain dup (s : Pub),
      2 + topic.length + msg.length < 268435456 → topic.length < 65536 →
      ∃ s2, publish topic msg retain 0 dup s = (.ok none, s2) ∧
        s2.rcv_pids = s.rcv_pids) ∧
    (∀ (topic msg : Bytes) retain dup (s : Pub),
      publish topic msg retain 2 dup s = (.error .assertFail, s)) := by
  refine ⟨?_, ?_, ?_⟩
  · intro topic msg retain dup s hsz htl hlook
    unfold publish
    rw [if_neg (by simp)]
    dsimp only
    rw [if_neg (by simp only [if_pos (show (1 : Nat) > 0 by omega)]; omega)]
    rw [if_neg (not_not_intro htl)]
    rw [if_pos (show (1 : Nat) > 0 by omega)]
    refine ⟨_, rfl, ?_⟩
    show dict_insert _ _ s.rcv_pids = _
    unfold dict_insert
    rw [hlook]
    simp
  · intro topic msg retain dup s hsz htl
    unfold publish
    rw [if_neg (by simp)]
    dsimp only
    rw [if_neg (by simp only [if_neg (show ¬((0 : Nat) > 0) by omega)]; omega)]
    rw [if_neg (not_not_intro htl)]
    rw [if_neg (show ¬((0 : Nat) > 0) by omega)]
    exact ⟨_, rfl, rfl⟩
  · intro topic msg retain dup s
    unfold publish
    rw [if_pos (by omega)]

/-- Witness for C2 at a concrete publish. -/
theorem c2_publish_witness :
    (∃ s2, publish [97] [98] false 1 false
        { rcv_pids := [], pid_state := 0, writes := [], now := 0,
          message_timeout := 5 } =
        (.ok (some (next_pid 0)), s2) ∧
      s2.rcv_pids = [] ++ [(next_pid 0, ticks_add 0 (5 * 1000))]) ∧
    publish [97] [98] false 2 false
      { rcv_pids := [], pid_state := 0, writes := [], now := 0,
        message_timeout := 5 } =
      (.error .assertFail,
        { rcv_pids := [], pid_state := 0, writes := [], now := 0,
          message_timeout := 5 }) :=
  ⟨c2_publish.1 [97] [98] false false _ (by decide) (by decide) (by decide),
   c2_publish.2.2 [97] [98] false false _⟩

/-! ## C7: CONNACK handling (source lines 264-271)

`connack_result b0 b1 b2 b3` processes the 4 response bytes read by
`connect`: `assert resp[0] == 0x20 and resp[1] == 0x02`; a nonzero
return code in 1..5 raises `MQTTException(20 + code)`, any other nonzero
code raises `MQTTException(20, code)`; on success bit 0 of byte 2 (the
session-present flag) is returned. -/

def connack_result (b0 b1 b2 b3 : Nat) : Except Err Nat :=
  if ¬(b0 = 0x20 ∧ b1 = 0x02) then .error .assertFail
  else if b3 ≠ 0 then
    if 1 ≤ b3 ∧ b3 ≤ 5 then .error (.mqtt (20 + (b3 : Int)))
    else .error (.mqttArg 20 b3)
  else .ok (b2 &&& 1)

/-- C7: a CONNACK with return code 0 makes connect return bit 0 of
byte 2 (the session-present flag); codes 1..5 each raise the distinct
error `MQTTException(20 + code)` (21..25); any other nonzero code raises
the generic `MQTTException(20, code)` carrying the raw value. -/
theorem c7_connack :
    (∀ b2, connack_result 0x20 0x02 b2 0 = .ok (b2 &&& 1) ∧ b2 &&& 1 = b2 % 2) ∧
    (∀ b2 b3, 1 ≤ b3 → b3 ≤ 5 →
      connack_result 0x20 0x02 b2 b3 = .error (.mqtt (20 + (b3 : Int)))) ∧
    (∀ c1 c2 : Nat, c1 ≠ c2 →
      (Err.mqtt (20 + (c1 : Int))) ≠ (Err.mqtt (20 + (c2 : Int)))) ∧
    (∀ b2 b3, b3 ≠ 0 → ¬(1 ≤ b3 ∧ b3 ≤ 5) →
      connack_result 0x20 0x02 b2 b3 = .error (.mqttArg 20 b3)) := by
  refine ⟨?_, ?_, ?_, ?_⟩
  · intro b2
    constructor
    · unfold connack_result
      rw [if_neg (by simp), if_neg (by simp)]
    · exact Nat.and_one_is_mod b2
  · intro b2 b3 h1 h5
    unfold connack_result
    rw [if_neg (by simp), if_pos (by omega), if_pos (by omega)]
  · intro c1 c2 hne hc
    have h1 : (20 + (c1 : Int)) = (20 + (c2 : Int)) := by
      injection hc
    have : (c1 : Int) = (c2 : Int) := by omega
    exact hne (by exact_mod_cast this)
  · intro b2 b3 h0 hr
    unfold connack_result
    rw [if_neg (by simp), if_pos h0, if_neg hr]

/-- Witness for C7: a concrete accepted, rejected-(code 4) and
generic-(code 200) CONNACK. -/
theorem c7_connack_witness :
    (connack_result 0x20 0x02 1 0 = .ok (1 &&& 1) ∧ 1 &&& 1 = 1 % 2) ∧
    connack_result 0x20 0x02 0 4 = .error (.mqtt (20 + ((4 : Nat) : Int))) ∧
    Err.mqtt (20 + ((3 : Nat) : Int)) ≠ Err.mqtt (20 + ((4 : Nat) : Int)) ∧
    connack_result 0x20 0x02 0 200 = .error (.mqttArg 20 200) :=
  ⟨c7_connack.1 1,
   c7_connack.2.1 0 4 (by decide) (by decide),
   c7_connack.2.2.1 3 4 (by decide),
   c7_connack.2.2.2 0 200 (by decide) (by decide)⟩

/-! ## C8: the CONNECT packet (source lines 229-253)

`connect_flags` is the connect-flags byte `msg[7]` and `connect_sz` the
remaining length `sz` as the source assembles them.  The last-will
fields participate only when `lw_topic` is truthy (set and non-empty, as
guaranteed by `set_last_will`); the password only when a username is
present. -/

def option_truthy (o : Option Bytes) : Bool :=
  match o with
  | none => false
  | some t => !t.isEmpty

def connect_flags (clean_session : Bool) (user pswd lw_topic : Option Bytes)
    (lw_qos : Nat) (lw_retain : Bool) : Nat :=
  let f := (if clean_session then 1 else 0) <<< 1
  let f := match user with
    | none => f
    | some _ =>
      let f2 := f ||| (1 <<< 7)
      match pswd with
      | none => f2
      | some _ => f2 ||| (1 <<< 6)
  if option_truthy lw_topic then
    (f ||| (0x4 ||| ((lw_qos &&& 0x1) <<< 3) ||| ((lw_qos &&& 0x2) <<< 3))) |||
      ((if lw_retain then 1 else 0) <<< 5)
  else f

def connect_sz (client_id : Bytes) (user pswd lw_topic : Option Bytes)
    (lw_msg : Bytes) : Nat :=
  let sz := 10 + 2 + client_id.length
  let sz := match user with
    | none => sz
    | some u =>
      match pswd with
      | none => sz + 2 + u.length
      | some p => sz + 2 + u.length + 2 + p.length
  if option_truthy lw_topic then
    sz + 2 + (lw_topic.getD []).length + 2 + lw_msg.length
  else sz

/-- C8: the connect-flags byte carries bit7 = username present, bit6 =
password present (only with a username), bit5 = will-retain, bits 4-3 =
will-QoS, bit2 = will flag, bit1 = clean session, bit0 = 0; and for
client_id "abc", clean session, no will/user, the flags byte is 0x02 and
the remaining length is 15. -/
theorem c8_connect_encoding :
    (∀ clean (user pswd lw_topic : Option Bytes) lw_qos lw_retain,
      lw_qos ≤ 2 →
      (connect_flags clean user pswd lw_topic lw_qos lw_retain).testBit 7 =
          user.isSome ∧
        (connect_flags clean user pswd lw_topic lw_qos lw_retain).testBit 6 =
          (user.isSome && pswd.isSome) ∧
        (connect_flags clean user pswd lw_topic lw_qos lw_retain).testBit 5 =
          (option_truthy lw_topic && lw_retain) ∧
        (connect_flags clean user pswd lw_topic lw_qos lw_retain).testBit 4 =
          (option_truthy lw_topic && lw_qos.testBit 1) ∧
        (connect_flags clean user pswd lw_topic lw_qos lw_retain).testBit 3 =
          (option_truthy lw_topic && lw_qos.testBit 0) ∧
        (connect_flags clean user pswd lw_topic lw_qos lw_retain).testBit 2 =
          option_truthy lw_topic ∧
        (connect_flags clean user pswd lw_topic lw_qos lw_retain).testBit 1 =
          clean ∧
        (connect_flags clean user pswd lw_topic lw_qos lw_retain).testBit 0 =
          false) ∧
    connect_flags true none none none 0 false = 0x02 ∧
    connect_sz [97, 98, 99] none none none [] = 15 := by
  refine ⟨?_, by decide, by decide⟩
  intro clean user pswd lw_topic lw_qos lw_retain hq
  have hq3 : lw_qos = 0 ∨ lw_qos = 1 ∨ lw_qos = 2 := by omega
  rcases user with _ | u <;> rcases pswd with _ | p <;>
    rcases lw_topic with _ | ⟨_ | ⟨b, t⟩⟩ <;>
    simp only [connect_flags, option_truthy, Option.isSome_none,
      Option.isSome_some, List.isEmpty_nil, List.isEmpty_cons,
      Bool.not_true, Bool.not_false, if_true, if_false, ite_true, ite_false] <;>
    rcases hq3 with rfl | rfl | rfl <;>
    revert clean lw_retain <;> decide

/-- Witness for C8 at a concrete flag assembly (will qos 1, retain,
user+password, clean session). -/
theorem c8_connect_encoding_witness :
    (connect_flags true (some [117]) (some [112]) (some [116]) 1
          true).testBit 7 = (some [117] : Option Bytes).isSome ∧
      (connect_flags true (some [117]) (some [112]) (some [116]) 1
          true).testBit 6 =
        ((some [117] : Option Bytes).isSome &&
          (some [112] : Option Bytes).isSome) ∧
      (connect_flags true (some [117]) (some [112]) (some [116]) 1
          true).testBit 5 = (option_truthy (some [116]) && true) ∧
      (connect_flags true (some [117]) (some [112]) (some [116]) 1
          true).testBit 4 = (option_truthy (some [116]) && (1 : Nat).testBit 1) ∧
      (connect_flags true (some [117]) (some [112]) (some [116]) 1
          true).testBit 3 = (option_truthy (some [116]) && (1 : Nat).testBit 0) ∧
      (connect_flags true (some [117]) (some [112]) (some [116]) 1
          true).testBit 2 = option_truthy (some [116]) ∧
      (connect_flags true (some [117]) (some [112]) (some [116]) 1
          true).testBit 1 = true ∧
      (connect_flags true (some [117]) (some [112]) (some [116]) 1
          true).testBit 0 = false :=
  c8_connect_encoding.1 true (some [117]) (some [112]) (some [116]) 1 true
    (by decide)

end Umqtt
